import Mathlib

/-!
Verification development for the home-library-bot repository
(`src/book_bot/telegram_bot_with_db.py`, with `src/main.py` as an earlier
variant of the same handlers).

The embedding models the Python code shallowly:

* Python strings are Lean `String` / `List Char`; the Python string
  primitives used by the code (`str.strip`, `str.split`, `str.isdigit`,
  `int(...)`) are modelled explicitly below, faithful to CPython's
  documented semantics on the character ranges that occur in this
  development (ASCII, Cyrillic, and the Unicode superscript digits;
  CPython's `str.isdigit` additionally accepts further Unicode numeral
  characters that are not modelled here).
* A raised exception is modelled as `Option.none` / a dedicated
  constructor; fallible steps return `Option`.
* The Redis pending store and the tenant-key registry are association
  lists; the per-tenant SQLite `books` tables are an association list
  from database path to the list of inserted rows.  The backing stores
  themselves are modelled as reachable (the `redis.RedisError` branches
  of the handlers are not exercised); SQLite write failure is modelled
  by an explicit `dbFail` flag passed to the handler.
-/

/-! ## Python string primitives -/

/-- Characters accepted by CPython `str.isspace` in the ASCII range
(space, tab, newline, carriage return, vertical tab, form feed). -/
def pyIsSpace (c : Char) : Bool :=
  c = ' ' || c = '\t' || c = '\n' || c = '\r' || c.toNat = 11 || c.toNat = 12

/-- Characters accepted by CPython `str.isdigit`: the decimal digits
`0`-`9` plus characters with Unicode property `Numeric_Type=Digit`,
of which the superscript digits are modelled here (CPython's
documentation names "the compatibility superscript digits" as
examples).  `int(...)` rejects the superscript digits. -/
def pyIsDigitChar (c : Char) : Bool :=
  c.isDigit || c = '¹' || c = '²' || c = '³' ||
  c = '⁰' || c = '⁴' || c = '⁵' || c = '⁶' || c = '⁷' || c = '⁸' || c = '⁹'

/-- CPython `str.isdigit`: nonempty and every character digit-like. -/
def pyIsDigit (cs : List Char) : Bool :=
  !cs.isEmpty && cs.all pyIsDigitChar

/-- Value of a string of ASCII decimal digits, most significant first. -/
def pyIntOfDigits (cs : List Char) : Nat :=
  cs.foldl (fun a c => 10 * a + (c.toNat - 48)) 0

/-- CPython `int(s)` restricted to the inputs reachable in this code:
the call is guarded by `str.isdigit`, so it succeeds exactly on
nonempty all-ASCII-decimal strings and raises `ValueError` (here:
`none`) on strings that pass `isdigit` through non-decimal digit
characters such as `'²'`. -/
def pyIntDigits? (cs : List Char) : Option Nat :=
  if !cs.isEmpty && cs.all Char.isDigit then some (pyIntOfDigits cs) else none

/-- Fuel-driven core of the decimal rendering (structural recursion so
that the kernel can evaluate it; the fuel is never exhausted when it
exceeds the argument). -/
def natDigitsF : Nat → Nat → List Char
  | 0, _ => []
  | f + 1, n =>
    if n < 10 then [Char.ofNat (48 + n)]
    else natDigitsF f (n / 10) ++ [Char.ofNat (48 + n % 10)]

/-- Decimal rendering of a natural number, as CPython `str(n)` for
a non-negative int. -/
def natDigits (n : Nat) : List Char := natDigitsF (n + 1) n

lemma natDigitsF_irrel (n : Nat) : ∀ f f', n < f → n < f' →
    natDigitsF f n = natDigitsF f' n := by
  induction n using Nat.strong_induction_on with
  | _ n ih =>
    intro f f' hf hf'
    match f, f' with
    | f0 + 1, f0' + 1 =>
      simp only [natDigitsF]
      by_cases h10 : n < 10
      · simp [h10]
      · rw [if_neg h10, if_neg h10]
        have hdiv : n / 10 < n := Nat.div_lt_self (by omega) (by omega)
        rw [ih (n / 10) hdiv f0 f0' (by omega) (by omega)]

lemma natDigits_unfold (n : Nat) :
    natDigits n = if n < 10 then [Char.ofNat (48 + n)]
      else natDigits (n / 10) ++ [Char.ofNat (48 + n % 10)] := by
  show natDigitsF (n + 1) n = _
  by_cases h10 : n < 10
  · simp [natDigitsF, h10]
  · have hdiv : n / 10 < n := Nat.div_lt_self (by omega) (by omega)
    simp only [natDigitsF, if_neg h10]
    rw [natDigitsF_irrel (n / 10) n (n / 10 + 1) (by omega) (by omega)]
    rfl

/-- Leading-whitespace removal (the left half of CPython `str.strip`). -/
def dropLeftWs (cs : List Char) : List Char := cs.dropWhile pyIsSpace

/-- Trailing-whitespace removal (the right half of CPython `str.strip`). -/
def dropRightWs (cs : List Char) : List Char :=
  (cs.reverse.dropWhile pyIsSpace).reverse

/-- CPython `str.strip()` on the modelled whitespace set. -/
def pyStrip (cs : List Char) : List Char := dropRightWs (dropLeftWs cs)

/-- CPython `str.strip()` at `String` type. -/
def pyStripStr (s : String) : String := String.mk (pyStrip s.data)

/-- Prepends a character to the first chunk of a chunk list. -/
def consHead (c : Char) : List (List Char) → List (List Char)
  | [] => [[c]]
  | l :: ls => (c :: l) :: ls

/-- CPython `str.split('\n')`: the list of newline-separated chunks;
the empty string yields one empty chunk. -/
def splitLines : List Char → List (List Char)
  | [] => [[]]
  | c :: rest =>
    if c = '\n' then [] :: splitLines rest else consHead c (splitLines rest)

/-- CPython `line.split(': ', 1)` when the separator occurs: splits at
the first (leftmost) occurrence of `": "`; `none` means the separator
is absent (the code's `': ' in line` test). -/
def splitSep : List Char → Option (List Char × List Char)
  | [] => none
  | c :: rest =>
    if c = ':' ∧ rest.head? = some ' ' then some ([], rest.tail)
    else (splitSep rest).map (fun p => (c :: p.1, p.2))

/-- CPython `text.split(maxsplit=1)`: first whitespace-run-delimited
token, then the remainder (itself left-trimmed), dropped when white. -/
def pySplitMax1 (s : String) : List String :=
  let cs := dropLeftWs s.data
  match cs with
  | [] => []
  | _ =>
    let tok := cs.takeWhile (fun c => !pyIsSpace c)
    let rest := dropLeftWs (cs.dropWhile (fun c => !pyIsSpace c))
    match rest with
    | [] => [String.mk tok]
    | _ => [String.mk tok, String.mk rest]

/-- CPython `text.split(maxsplit=2)`: two tokens then the remainder. -/
def pySplitMax2 (s : String) : List String :=
  match pySplitMax1 s with
  | [tok, rest] =>
    match pySplitMax1 rest with
    | [tok2, rest2] => [tok, tok2, rest2]
    | [tok2] => [tok, tok2]
    | _ => [tok]
  | other => other

/-! ## Record Parser (`parse_book_data`, lines 325-350; identical in
`src/main.py` lines 120-136) -/

/-- The partial book record produced by `parse_book_data`: a Python
dict in which each of the five recognized fields may be absent. -/
structure BookData where
  author : Option String := none
  title : Option String := none
  publication_year : Option Nat := none
  category : Option String := none
  publisher : Option String := none
deriving DecidableEq, Repr

/-- The empty dict `book_data = {}` the parser starts from. -/
def emptyBook : BookData := {}

/-- One iteration of the parser's line loop: skip the line when `": "`
is absent, otherwise dispatch on the label.  The publication-year
branch is `int(value) if value.isdigit() else 0`; `none` models the
`ValueError` raised when `value` passes `isdigit` but is rejected by
`int` (e.g. a superscript digit). -/
def setLine (b : BookData) (line : List Char) : Option BookData :=
  match splitSep line with
  | none => some b
  | some (key, value) =>
    if key = "Автор".data then some { b with author := some (String.mk value) }
    else if key = "Название".data then some { b with title := some (String.mk value) }
    else if key = "Год издания".data then
      if pyIsDigit value then
        (pyIntDigits? value).map (fun n => { b with publication_year := some n })
      else some { b with publication_year := some 0 }
    else if key = "Категория".data then some { b with category := some (String.mk value) }
    else if key = "Издательство".data then some { b with publisher := some (String.mk value) }
    else some b

/-- The parser's loop over the lines, propagating a raised exception. -/
def parseLinesFrom (b : BookData) : List (List Char) → Option BookData
  | [] => some b
  | l :: ls =>
    match setLine b l with
    | none => none
    | some b' => parseLinesFrom b' ls

/-- `parse_book_data` (lines 325-350): strip the text, split it into
lines, and fold the line loop; `none` models a raised exception. -/
def parse_book_data (t : String) : Option BookData :=
  parseLinesFrom emptyBook (splitLines (pyStrip t.data))

/-- Modelled from the spec (§4.2): the parsing algorithm as the spec
words it — the publication-year value is converted to an integer only
if it consists entirely of decimal digits and is otherwise stored as
0, and the parse never fails.  Used to compare the code against the
spec's description. -/
def setLineSpec (b : BookData) (line : List Char) : BookData :=
  match splitSep line with
  | none => b
  | some (key, value) =>
    if key = "Автор".data then { b with author := some (String.mk value) }
    else if key = "Название".data then { b with title := some (String.mk value) }
    else if key = "Год издания".data then
      if !value.isEmpty && value.all Char.isDigit then
        { b with publication_year := some (pyIntOfDigits value) }
      else { b with publication_year := some 0 }
    else if key = "Категория".data then { b with category := some (String.mk value) }
    else if key = "Издательство".data then { b with publisher := some (String.mk value) }
    else b

/-- Modelled from the spec (§4.2): the whole never-failing parse. -/
def parse_book_data_spec (t : String) : BookData :=
  (splitLines (pyStrip t.data)).foldl setLineSpec emptyBook

/-! ## Rendering (the card format of `find_books_by_author`,
lines 496-507) -/

/-- A record with all five recognized fields, as read back from a
ledger row (`publication_year` is the non-negative case). -/
structure FullBook where
  author : String
  title : String
  publication_year : Nat
  category : String
  publisher : String
deriving DecidableEq, Repr

/-- The five `"Label: value"` lines the bot renders for one book
(`find_books_by_author`, lines 496-507). -/
def renderBook (r : FullBook) : String :=
  "Автор: " ++ r.author ++ "\n" ++
  "Название: " ++ r.title ++ "\n" ++
  "Год издания: " ++ String.mk (natDigits r.publication_year) ++ "\n" ++
  "Категория: " ++ r.category ++ "\n" ++
  "Издательство: " ++ r.publisher

/-- The dict a fully-populated record parses to. -/
def toBookData (r : FullBook) : BookData :=
  { author := some r.author, title := some r.title,
    publication_year := some r.publication_year,
    category := some r.category, publisher := some r.publisher }

/-- The five recognized labels of the parser, as abstract field names. -/
inductive BField
  | author
  | title
  | year
  | category
  | publisher
deriving DecidableEq, Repr

/-- The label text the parser recognizes for each field. -/
def labelOf : BField → String
  | BField.author => "Автор"
  | BField.title => "Название"
  | BField.year => "Год издания"
  | BField.category => "Категория"
  | BField.publisher => "Издательство"

/-- A parsed field value: text, or the parsed year. -/
inductive FieldVal
  | str : String → FieldVal
  | num : Nat → FieldVal
deriving DecidableEq, Repr

/-- Projection of one field out of a parsed record. -/
def fieldGet : BField → BookData → Option FieldVal
  | BField.author, b => b.author.map FieldVal.str
  | BField.title, b => b.title.map FieldVal.str
  | BField.year, b => b.publication_year.map FieldVal.num
  | BField.category, b => b.category.map FieldVal.str
  | BField.publisher, b => b.publisher.map FieldVal.str

/-- The value one labelled line `Label: v` assigns to its field: the
raw text for the four text fields; for the year, the parsed integer
when `v` passes `isdigit` and `int` accepts it (when `int` rejects it
the whole parse raises), and 0 when `v` fails `isdigit`. -/
def pyFieldVal : BField → String → Option FieldVal
  | BField.year, v =>
    if pyIsDigit v.data then (pyIntDigits? v.data).map FieldVal.num
    else some (FieldVal.num 0)
  | _, v => some (FieldVal.str v)

example : parse_book_data "Автор: A\nНазвание: B\nГод издания: 2020\nКатегория: C\nИздательство: P" =
    some { author := some "A", title := some "B", publication_year := some 2020,
           category := some "C", publisher := some "P" } := by decide

example : parse_book_data "Год издания: ²" = none := by decide

example : parse_book_data "Год издания: x1" =
    some { publication_year := some 0 } := by decide

example : (parse_book_data_spec "Год издания: ²").publication_year = some 0 := by decide

example : pySplitMax1 "/start  k1 x " = ["/start", "k1 x "] := by decide

example : pySplitMax2 "/add_key k f.db extra" = ["/add_key", "k", "f.db extra"] := by decide

/-! ## System state: Redis pending store, tenant registry, ledgers -/

/-- A JSON value of the shapes `parse_book_data` produces (the staged
dicts are flat string/int dicts, which `json.dumps`/`json.loads`
round-trips exactly). -/
inductive JVal
  | s : String → JVal
  | n : Nat → JVal
deriving DecidableEq, Repr

/-- A JSON object / Python dict as an association list. -/
abbrev JDict := List (String × JVal)

/-- Python `dict.get(k, default-string)` on a staged dict (the staged
dicts always hold strings at the string keys, so only the absent-key
default is ever exercised). -/
def getStr (d : JDict) (k : String) : String :=
  match d.lookup k with
  | some (JVal.s v) => v
  | _ => ""

/-- Python `dict.get("publication_year", 0)` on a staged dict. -/
def getNat (d : JDict) (k : String) : Nat :=
  match d.lookup k with
  | some (JVal.n v) => v
  | _ => 0

/-- JSON encoding of the parsed record: one entry per present field
(entry order is irrelevant to the dict lookups that consume it). -/
def dumps (b : BookData) : JDict :=
  (match b.author with | some a => [("author", JVal.s a)] | none => []) ++
  (match b.title with | some t => [("title", JVal.s t)] | none => []) ++
  (match b.publication_year with | some y => [("publication_year", JVal.n y)] | none => []) ++
  (match b.category with | some c => [("category", JVal.s c)] | none => []) ++
  (match b.publisher with | some p => [("publisher", JVal.s p)] | none => [])

/-- One row of a tenant's `books` table as inserted by `save_book`
(`created_at` is filled by the database default and not modelled). -/
structure BookRow where
  rid : String
  author : String
  title : String
  publication_year : Nat
  category : String
  publisher : String
  user_id : String
deriving DecidableEq, Repr

/-- Redis `GET`. -/
def redisGet (st : List (String × α)) (k : String) : Option α := st.lookup k

/-- Redis `SET`/`SETEX` (upsert; the TTL itself is untimed here). -/
def redisSet (st : List (String × α)) (k : String) (v : α) : List (String × α) :=
  (k, v) :: st.filter (fun e => e.1 != k)

/-- Redis `DELETE`. -/
def redisDel (st : List (String × α)) (k : String) : List (String × α) :=
  st.filter (fun e => e.1 != k)

/-- The mutable state the handlers touch: the global `BotState`
(lines 55-62), the `db_keys` registry, the Redis pending store
(keys `book:<id>`), and one `books` table per database path. -/
structure SysState where
  current_db_key : Option String
  db_keys : List (String × String)
  pending : List (String × JDict)
  ledgers : List (String × List BookRow)
deriving DecidableEq, Repr

/-- The rows of the `books` table at one database path. -/
def ledgerAt (s : SysState) (p : String) : List BookRow :=
  (s.ledgers.lookup p).getD []

/-- `get_current_db_path` (lines 93-103): `None` when no key is set
(Python truthiness: the empty string also counts as unset), else the
registry entry for the key. -/
def get_current_db_path (s : SysState) : Option String :=
  if s.current_db_key.getD "" = "" then none
  else s.db_keys.lookup (s.current_db_key.getD "")

/-- `save_book` (lines 279-322): `False` without a current database
path; on insert failure (`aiosqlite.Error`, modelled by `dbFail`)
`False`; otherwise inserts one row with a fresh `rowId` and the
missing fields defaulted, and returns `True`. -/
def save_book (s : SysState) (d : JDict) (user_id rowId : String) (dbFail : Bool) :
    SysState × Bool :=
  let p := (get_current_db_path s).getD ""
  if p = "" then (s, false)
  else if dbFail then (s, false)
  else
    ({ s with ledgers := redisSet s.ledgers p (ledgerAt s p ++
        [⟨rowId, getStr d "author", getStr d "title", getNat d "publication_year",
          getStr d "category", getStr d "publisher", user_id⟩]) }, true)

/-! ## Handlers -/

/-- Reply of `/start` asking for a key. -/
def MSG_GIVE_KEY : String :=
  "Пожалуйста, укажите ключ базы данных. Пример: /start Splunky-Rose4"

/-- Reply of `/start` for an unknown key. -/
def MSG_BAD_KEY : String :=
  "Неверный ключ базы данных. Попросите администратора добавить ключ."

/-- Reply of `/start` on success. -/
def MSG_CONNECTED (k : String) : String :=
  "Подключено к базе данных с ключом " ++ k ++
  ". Отправь изображение первой страницы книги, и я пришлю карточку для сохранения."

/-- Guidance reply sent whenever no database is selected. -/
def MSG_CONNECT_FIRST : String :=
  "Сначала подключитесь к базе данных с помощью /start <ключ>."

/-- Rejection reply of `/add_key` for non-admin callers. -/
def MSG_ADMIN_ONLY : String := "Эта команда доступна только администратору."

/-- Usage reply of `/add_key`. -/
def MSG_KEY_USAGE : String :=
  "Укажите ключ и имя файла БД. Пример: /add_key Splunky-Rose4 books_splunky.db"

/-- Success reply of `/add_key`. -/
def MSG_KEY_ADDED (k f : String) : String :=
  "Ключ " ++ k ++ " добавлен с файлом БД " ++ f ++ "."

/-- The fixed apology `process_images` substitutes for any
`GigaChatException`/`OSError` (lines 395-397). -/
def MSG_EXTRACT_FAIL : String := "Произошла ошибка при обработке изображений."

/-- Not-found reply of the save callback. -/
def MSG_NOT_FOUND : String := "Ошибка: данные книги не найдены."

/-- Success reply of the save callback. -/
def MSG_SAVE_OK : String := "Книга успешно сохранена в базе данных!"

/-- Ledger-failure reply of the save callback. -/
def MSG_SAVE_FAIL : String := "Ошибка при сохранении книги."

/-- `send_welcome` (`/start <key>`, lines 400-422).  Returns the new
state, the reply, and whether `init_db` ran. -/
def send_welcome (s : SysState) (text : String) : SysState × String × Bool :=
  match pySplitMax1 text with
  | [_, rest] =>
    let db_key := pyStripStr rest
    match s.db_keys.lookup db_key with
    | none => (s, MSG_BAD_KEY, false)
    | some _ => ({ s with current_db_key := some db_key }, MSG_CONNECTED db_key, true)
  | _ => (s, MSG_GIVE_KEY, false)

/-- `add_db_key` (`/add_key <key> <file>`, lines 450-473).  Returns the
new state, the reply, and whether `init_db` ran. -/
def add_db_key (adminId : Nat) (s : SysState) (callerId : Nat) (text : String) :
    SysState × String × Bool :=
  if callerId ≠ adminId then (s, MSG_ADMIN_ONLY, false)
  else
    match pySplitMax2 text with
    | [_, a1, a2] =>
      let db_key := pyStripStr a1
      let f0 := pyStripStr a2
      let db_file := if f0.endsWith ".db" then f0 else f0 ++ ".db"
      ({ s with db_keys := redisSet s.db_keys db_key db_file },
       MSG_KEY_ADDED db_key db_file, true)
    | _ => (s, MSG_KEY_USAGE, false)

/-- `process_images` (lines 360-397) seen from the caller: either the
extraction service's text, or — on `ExtractionError` — the fixed
apology string returned in its place. -/
def process_images (o : Except Unit String) : String :=
  match o with
  | Except.ok t => t
  | Except.error _ => MSG_EXTRACT_FAIL

/-- What `handle_photo` replies. -/
inductive PhotoReply
  | plain : String → PhotoReply
  | card : String → String → PhotoReply
deriving DecidableEq, Repr

/-- Observable outcome of `handle_photo`: the state afterwards, whether
the image download and the extraction call happened, and the reply
(`none` models an exception escaping the handler). -/
structure PhotoOutcome where
  state : SysState
  downloaded : Bool
  extracted : Bool
  reply : Option PhotoReply
deriving DecidableEq, Repr

/-- The `setex` staging step of `handle_photo` (lines 632-643): store
the JSON-encoded record under the fresh `book:<id>` key with the TTL. -/
def stage_pending (s : SysState) (book_id : String) (d : JDict) : SysState :=
  { s with pending := redisSet s.pending ("book:" ++ book_id) d }

/-- `handle_photo` (lines 603-655): guidance reply when no database is
selected (before any download); otherwise download, extract, parse
(an exception in the parse escapes before staging), stage the parsed
record under a fresh id, and reply with the extraction text plus the
save keyboard carrying that id. -/
def handle_photo (s : SysState) (o : Except Unit String) (book_id : String) :
    PhotoOutcome :=
  if s.current_db_key.getD "" = "" then ⟨s, false, false, some (PhotoReply.plain MSG_CONNECT_FIRST)⟩
  else
    let result := process_images o
    match parse_book_data result with
    | none => ⟨s, true, true, none⟩
    | some bd =>
      ⟨stage_pending s book_id (dumps bd), true, true,
       some (PhotoReply.card result book_id)⟩

/-- What the save callback replies (`exception` models an uncaught
`IndexError` from the `split` indexing). -/
inductive CbReply
  | exception : CbReply
  | reply : String → CbReply
deriving DecidableEq, Repr

/-- CPython `data.split("save_book:")`: the chunks between the
non-overlapping leftmost occurrences of that separator. -/
def splitSaveBook : List Char → List (List Char)
  | [] => [[]]
  | 's' :: 'a' :: 'v' :: 'e' :: '_' :: 'b' :: 'o' :: 'o' :: 'k' :: ':' :: rest =>
    [] :: splitSaveBook rest
  | c :: rest =>
    match splitSaveBook rest with
    | l :: ls => (c :: l) :: ls
    | [] => [[c]]

/-- The `callback.data.split(...)[1]` step of the save callback
(`none` models the `IndexError` when the separator is absent). -/
def extract_book_id (data : String) : Option String :=
  ((splitSaveBook data.data).get? 1).map String.mk

/-- `process_save_callback` (lines 658-690): guidance reply when no
database is selected; not-found reply when the pending key is absent;
otherwise `save_book`, and only on success reply success and delete
the pending entry — on failure reply failure and leave the entry. -/
def process_save_callback (s : SysState) (data user_id rowId : String) (dbFail : Bool) :
    SysState × CbReply :=
  if s.current_db_key.getD "" = "" then (s, CbReply.reply MSG_CONNECT_FIRST)
  else
    match extract_book_id data with
    | none => (s, CbReply.exception)
    | some book_id =>
      match redisGet s.pending ("book:" ++ book_id) with
      | none => (s, CbReply.reply MSG_NOT_FOUND)
      | some d =>
        let r := save_book s d user_id rowId dbFail
        if r.2 then
          ({ r.1 with pending := redisDel r.1.pending ("book:" ++ book_id) },
           CbReply.reply MSG_SAVE_OK)
        else (r.1, CbReply.reply MSG_SAVE_FAIL)

example :
    (process_save_callback ⟨some "k", [("k", "a.db")], [("book:p1", [("author", JVal.s "A")])], []⟩
      "save_book:p1" "7" "r1" false).2 = CbReply.reply MSG_SAVE_OK := by decide

example :
    (process_save_callback ⟨some "k", [("k", "a.db")], [("book:p1", [("author", JVal.s "A")])], []⟩
      "save_book:p1" "7" "r1" true).2 = CbReply.reply MSG_SAVE_FAIL := by decide

/-- Concrete state with a tenant selected and nothing staged. -/
def c2State : SysState := ⟨some "k", [("k", "a.db")], [], []⟩

/-- Staged dict used in the C3 counterexample. -/
def c3Dict : JDict := [("author", JVal.s "A")]

/-- Concrete state with a tenant selected and one staged record. -/
def c3State : SysState := ⟨some "k", [("k", "a.db")], [("book:p1", c3Dict)], []⟩

/-- Concrete registry with two tenants for the C8 scenario. -/
def c8State : SysState := ⟨none, [("k1", "a.db"), ("k2", "b.db")], [], []⟩

/-! ## Helper lemmas -/

lemma string_mk_data (s : String) : String.mk s.data = s := rfl

lemma splitLines_ne_nil (cs : List Char) : splitLines cs ≠ [] := by
  cases cs with
  | nil => simp [splitLines]
  | cons c rest =>
    simp only [splitLines]
    split
    · simp
    · cases h : splitLines rest <;> simp [consHead]

lemma consHead_append (c : Char) (xs ys : List (List Char)) (h : xs ≠ []) :
    consHead c (xs ++ ys) = consHead c xs ++ ys := by
  cases xs with
  | nil => exact absurd rfl h
  | cons l ls => rfl

lemma splitLines_append (a b : List Char) :
    splitLines (a ++ '\n' :: b) = splitLines a ++ splitLines b := by
  induction a with
  | nil => simp [splitLines]
  | cons c a' ih =>
    by_cases hc : c = '\n'
    · subst hc; simp [splitLines, ih]
    · simp only [List.cons_append, splitLines, if_neg hc, List.append_eq]
      rw [ih, consHead_append c _ _ (splitLines_ne_nil a')]

lemma splitLines_no_newline (l : List Char) (h : '\n' ∉ l) : splitLines l = [l] := by
  induction l with
  | nil => rfl
  | cons c l' ih =>
    rw [List.mem_cons, not_or] at h
    obtain ⟨h1, h2⟩ := h
    have hc : c ≠ '\n' := fun hh => h1 hh.symm
    simp [splitLines, hc, ih h2, consHead]

lemma parseLinesFrom_cons (b : BookData) (l : List Char) (ls : List (List Char))
    (b' : BookData) (h : setLine b l = some b') :
    parseLinesFrom b (l :: ls) = parseLinesFrom b' ls := by
  simp only [parseLinesFrom, h]

lemma parseLinesFrom_append (b : BookData) (xs ys : List (List Char)) :
    parseLinesFrom b (xs ++ ys) =
      match parseLinesFrom b xs with
      | none => none
      | some b' => parseLinesFrom b' ys := by
  induction xs generalizing b with
  | nil => simp [parseLinesFrom]
  | cons l ls ih =>
    simp only [List.cons_append, parseLinesFrom]
    cases setLine b l with
    | none => rfl
    | some b' => exact ih b'

lemma splitSep_boundary (lab v : List Char) (h : ':' ∉ lab) :
    splitSep (lab ++ ':' :: ' ' :: v) = some (lab, v) := by
  induction lab with
  | nil => simp [splitSep]
  | cons c lab' ih =>
    rw [List.mem_cons, not_or] at h
    obtain ⟨h1, h2⟩ := h
    have hc : ¬(c = ':' ∧ ((lab' ++ ':' :: ' ' :: v).head? = some ' ')) := by
      intro hh; exact h1 hh.1.symm
    simp only [List.cons_append, splitSep, List.append_eq]
    rw [if_neg hc, ih h2, Option.map_some']

lemma dropLeftWs_append (a b : List Char) :
    dropLeftWs (a ++ b) =
      if dropLeftWs a = [] then dropLeftWs b else dropLeftWs a ++ b := by
  induction a with
  | nil => simp [dropLeftWs]
  | cons c a' ih =>
    by_cases h : pyIsSpace c
    · simpa [dropLeftWs, List.dropWhile_cons, h] using ih
    · simp [dropLeftWs, List.dropWhile_cons, h]

lemma dropLeftWs_cons_of_not_ws (c : Char) (cs : List Char) (h : pyIsSpace c = false) :
    dropLeftWs (c :: cs) = c :: cs := by
  simp [dropLeftWs, List.dropWhile_cons, h]

lemma dropRightWs_last_not_ws (xs : List Char) (c : Char) (h : pyIsSpace c = false) :
    dropRightWs (xs ++ [c]) = xs ++ [c] := by
  simp [dropRightWs, List.dropWhile_cons, h]

lemma pyIntOfDigits_concat (xs : List Char) (c : Char) :
    pyIntOfDigits (xs ++ [c]) = 10 * pyIntOfDigits xs + (c.toNat - 48) := by
  simp [pyIntOfDigits, List.foldl_append]

lemma digit_char_facts :
    ∀ d, d < 10 → ((Char.ofNat (48 + d)).toNat = 48 + d ∧
      (Char.ofNat (48 + d)).isDigit = true ∧
      pyIsDigitChar (Char.ofNat (48 + d)) = true ∧
      Char.ofNat (48 + d) ≠ '\n' ∧
      pyIsSpace (Char.ofNat (48 + d)) = false) := by decide

lemma natDigits_ne_nil (n : Nat) : natDigits n ≠ [] := by
  rw [natDigits_unfold]
  split <;> simp

lemma natDigits_spec (n : Nat) :
    (∀ c ∈ natDigits n, Char.isDigit c = true) ∧ pyIntOfDigits (natDigits n) = n := by
  induction n using Nat.strong_induction_on with
  | _ n ih =>
    rw [natDigits_unfold]
    split
    next h =>
      refine ⟨fun c hc => ?_, ?_⟩
      · rw [List.mem_singleton] at hc
        subst hc
        exact (digit_char_facts n h).2.1
      · have := (digit_char_facts n h).1
        simp [pyIntOfDigits]
        omega
    next h =>
      have hlt : n / 10 < n := Nat.div_lt_self (by omega) (by omega)
      obtain ⟨ih1, ih2⟩ := ih (n / 10) hlt
      have hm : n % 10 < 10 := Nat.mod_lt _ (by omega)
      refine ⟨fun c hc => ?_, ?_⟩
      · rw [List.mem_append, List.mem_singleton] at hc
        rcases hc with hc | hc
        · exact ih1 c hc
        · subst hc
          exact (digit_char_facts _ hm).2.1
      · rw [pyIntOfDigits_concat, ih2, (digit_char_facts _ hm).1]
        omega

lemma pyIntDigits?_natDigits (n : Nat) : pyIntDigits? (natDigits n) = some n := by
  obtain ⟨h1, h2⟩ := natDigits_spec n
  have hne := natDigits_ne_nil n
  have hc : (!(natDigits n).isEmpty && (natDigits n).all Char.isDigit) = true := by
    rw [Bool.and_eq_true]
    exact ⟨by simpa [List.isEmpty_iff] using hne, List.all_eq_true.mpr h1⟩
  rw [pyIntDigits?, if_pos hc, h2]

lemma pyIsDigit_natDigits (n : Nat) : pyIsDigit (natDigits n) = true := by
  obtain ⟨h1, _⟩ := natDigits_spec n
  have hne := natDigits_ne_nil n
  rw [pyIsDigit, Bool.and_eq_true]
  constructor
  · simpa [List.isEmpty_iff] using hne
  · rw [List.all_eq_true]
    intro c hc
    simp [pyIsDigitChar, h1 c hc]

lemma natDigits_no_newline (n : Nat) : '\n' ∉ natDigits n := by
  intro hmem
  have := (natDigits_spec n).1 _ hmem
  simp [Char.isDigit] at this

lemma dumps_get (b : BookData) :
    getStr (dumps b) "author" = b.author.getD "" ∧
    getStr (dumps b) "title" = b.title.getD "" ∧
    getNat (dumps b) "publication_year" = b.publication_year.getD 0 ∧
    getStr (dumps b) "category" = b.category.getD "" ∧
    getStr (dumps b) "publisher" = b.publisher.getD "" := by
  obtain ⟨a, t, y, c, p⟩ := b
  cases a <;> cases t <;> cases y <;> cases c <;> cases p <;>
    exact ⟨rfl, rfl, rfl, rfl, rfl⟩

lemma lookup_set_self (st : List (String × α)) (k : String) (v : α) :
    (redisSet st k v).lookup k = some v := by
  simp [redisSet, List.lookup]

lemma redisGet_set_self (st : List (String × α)) (k : String) (v : α) :
    redisGet (redisSet st k v) k = some v := lookup_set_self st k v

lemma redisGet_del_self (st : List (String × α)) (k : String) :
    redisGet (redisDel st k) k = none := by
  induction st with
  | nil => rfl
  | cons e st' ih =>
    obtain ⟨k', v⟩ := e
    by_cases h : k' = k
    · simpa [redisDel, List.filter_cons, h] using ih
    · have hbeq : (k == k') = false := by simp [Ne.symm h]
      simpa [redisDel, redisGet, List.filter_cons, h, List.lookup, hbeq] using ih

lemma dropWhile_append_of_ne (p : Char → Bool) (x y : List Char)
    (h : x.dropWhile p ≠ []) :
    (x ++ y).dropWhile p = x.dropWhile p ++ y := by
  induction x with
  | nil => exact absurd rfl h
  | cons c x' ih =>
    by_cases hc : p c
    · rw [List.dropWhile_cons_of_pos hc] at h
      simp only [List.cons_append, List.dropWhile_cons_of_pos hc]
      exact ih h
    · simp only [List.cons_append, List.dropWhile_cons_of_neg hc]

lemma dropRightWs_append_keep (a b : List Char) (hb : b ≠ [])
    (h : dropRightWs b = b) : dropRightWs (a ++ b) = a ++ b := by
  have hrev : b.reverse.dropWhile pyIsSpace = b.reverse := by
    have := congrArg List.reverse h
    simpa [dropRightWs] using this
  have hbne : b.reverse.dropWhile pyIsSpace ≠ [] := by
    rw [hrev]
    simpa using hb
  rw [dropRightWs, List.reverse_append, dropWhile_append_of_ne _ _ _ hbne, hrev]
  simp

lemma dropRightWs_cons_keep (x : Char) (b : List Char) (hb : b ≠ [])
    (h : dropRightWs b = b) : dropRightWs (x :: b) = x :: b := by
  rw [← List.singleton_append]
  exact dropRightWs_append_keep [x] b hb h

lemma dropRightWs_singleton (c : Char) (hc : pyIsSpace c = false) :
    dropRightWs [c] = [c] := by
  simpa using dropRightWs_last_not_ws [] c hc

lemma no_newline_line (lab v : List Char) (h1 : '\n' ∉ lab) (h2 : '\n' ∉ v) :
    '\n' ∉ lab ++ ':' :: ' ' :: v := by
  intro hmem
  rcases List.mem_append.mp hmem with h | h
  · exact h1 h
  · rw [List.mem_cons, List.mem_cons] at h
    rcases h with h | h | h
    · exact absurd h (by decide)
    · exact absurd h (by decide)
    · exact h2 h

lemma setLine_author (b : BookData) (v : List Char) :
    setLine b ("Автор".data ++ ':' :: ' ' :: v) =
      some { b with author := some (String.mk v) } := by
  simp only [setLine]
  rw [splitSep_boundary _ _ (by decide)]
  simp

lemma setLine_title (b : BookData) (v : List Char) :
    setLine b ("Название".data ++ ':' :: ' ' :: v) =
      some { b with title := some (String.mk v) } := by
  simp only [setLine]
  rw [splitSep_boundary _ _ (by decide)]
  simp

lemma setLine_year_digits (b : BookData) (n : Nat) :
    setLine b ("Год издания".data ++ ':' :: ' ' :: natDigits n) =
      some { b with publication_year := some n } := by
  simp only [setLine]
  rw [splitSep_boundary _ _ (by decide)]
  simp [pyIsDigit_natDigits, pyIntDigits?_natDigits]

lemma setLine_category (b : BookData) (v : List Char) :
    setLine b ("Категория".data ++ ':' :: ' ' :: v) =
      some { b with category := some (String.mk v) } := by
  simp only [setLine]
  rw [splitSep_boundary _ _ (by decide)]
  simp

lemma setLine_publisher (b : BookData) (v : List Char) :
    setLine b ("Издательство".data ++ ':' :: ' ' :: v) =
      some { b with publisher := some (String.mk v) } := by
  simp only [setLine]
  rw [splitSep_boundary _ _ (by decide)]
  simp

lemma data_mk (l : List Char) : (String.mk l).data = l := rfl

lemma label_no_newline (f : BField) : '\n' ∉ (labelOf f).data := by
  cases f <;> decide

lemma label_head (f : BField) :
    ∃ c0 w, (labelOf f).data = c0 :: w ∧ pyIsSpace c0 = false := by
  cases f
  · exact ⟨'А', _, rfl, by decide⟩
  · exact ⟨'Н', _, rfl, by decide⟩
  · exact ⟨'Г', _, rfl, by decide⟩
  · exact ⟨'К', _, rfl, by decide⟩
  · exact ⟨'И', _, rfl, by decide⟩

lemma dropLeftWs_cons_of_ws (c : Char) (cs : List Char) (h : pyIsSpace c = true) :
    dropLeftWs (c :: cs) = dropLeftWs cs := by
  simp [dropLeftWs, List.dropWhile_cons, h]

lemma parseLinesFrom_singleton (b0 b : BookData) (l : List Char)
    (h : parseLinesFrom b0 [l] = some b) : setLine b0 l = some b := by
  cases hs : setLine b0 l with
  | none => simp [parseLinesFrom, hs] at h
  | some b' =>
    simp only [parseLinesFrom, hs] at h
    rw [h]

lemma setLine_field (f : BField) (b0 b : BookData) (v : List Char)
    (h : setLine b0 ((labelOf f).data ++ ':' :: ' ' :: v) = some b) :
    fieldGet f b = pyFieldVal f (String.mk v) := by
  cases f with
  | author =>
    simp only [labelOf] at h
    rw [setLine_author] at h
    injection h with h
    subst h
    simp [fieldGet, pyFieldVal]
  | title =>
    simp only [labelOf] at h
    rw [setLine_title] at h
    injection h with h
    subst h
    simp [fieldGet, pyFieldVal]
  | category =>
    simp only [labelOf] at h
    rw [setLine_category] at h
    injection h with h
    subst h
    simp [fieldGet, pyFieldVal]
  | publisher =>
    simp only [labelOf] at h
    rw [setLine_publisher] at h
    injection h with h
    subst h
    simp [fieldGet, pyFieldVal]
  | year =>
    simp only [labelOf] at h
    simp only [setLine] at h
    rw [splitSep_boundary _ _ (by decide)] at h
    dsimp only at h
    rw [if_neg (by decide), if_neg (by decide), if_pos rfl] at h
    by_cases hd : pyIsDigit v = true
    · rw [if_pos hd] at h
      cases hy : pyIntDigits? v with
      | none => rw [hy] at h; simp at h
      | some n =>
        rw [hy] at h
        simp only [Option.map_some'] at h
        injection h with h
        subst h
        simp [fieldGet, pyFieldVal, data_mk, hd, hy]
    · rw [if_neg hd] at h
      injection h with h
      subst h
      simp [fieldGet, pyFieldVal, data_mk, hd]

lemma parse_last_line_core (tl : List Char) (f : BField) (v : List Char)
    (hv1 : '\n' ∉ v)
    (hv2 : ∃ v' c, v = v' ++ [c] ∧ pyIsSpace c = false)
    (b : BookData)
    (h : parseLinesFrom emptyBook (splitLines (pyStrip
      (tl ++ '\n' :: ((labelOf f).data ++ ':' :: ' ' :: v)))) = some b) :
    fieldGet f b = pyFieldVal f (String.mk v) := by
  obtain ⟨v', c, rfl, hc⟩ := hv2
  have hLnl : '\n' ∉ (labelOf f).data ++ ':' :: ' ' :: (v' ++ [c]) :=
    no_newline_line _ _ (label_no_newline f) hv1
  obtain ⟨c0, w, hw, hc0⟩ := label_head f
  have hLne : (labelOf f).data ++ ':' :: ' ' :: (v' ++ [c]) ≠ [] := by
    rw [hw]
    simp
  have d1 : dropRightWs (v' ++ [c]) = v' ++ [c] :=
    dropRightWs_append_keep _ _ (by simp) (dropRightWs_singleton c hc)
  have d2 : dropRightWs (' ' :: (v' ++ [c])) = ' ' :: (v' ++ [c]) :=
    dropRightWs_cons_keep _ _ (by simp) d1
  have d3 : dropRightWs (':' :: ' ' :: (v' ++ [c])) = ':' :: ' ' :: (v' ++ [c]) :=
    dropRightWs_cons_keep _ _ (by simp) d2
  have d4 : dropRightWs ((labelOf f).data ++ ':' :: ' ' :: (v' ++ [c])) =
      (labelOf f).data ++ ':' :: ' ' :: (v' ++ [c]) :=
    dropRightWs_append_keep _ _ (by simp) d3
  have hLleft : dropLeftWs ((labelOf f).data ++ ':' :: ' ' :: (v' ++ [c])) =
      (labelOf f).data ++ ':' :: ' ' :: (v' ++ [c]) := by
    rw [hw]
    simp only [List.cons_append]
    exact dropLeftWs_cons_of_not_ws _ _ hc0
  simp only [pyStrip] at h
  rw [dropLeftWs_append] at h
  by_cases htl : dropLeftWs tl = []
  · rw [if_pos htl, dropLeftWs_cons_of_ws _ _ (by decide), hLleft, d4,
      splitLines_no_newline _ hLnl] at h
    exact setLine_field f emptyBook b _ (parseLinesFrom_singleton _ _ _ h)
  · rw [if_neg htl,
      dropRightWs_append_keep _ _ (by simp) (dropRightWs_cons_keep '\n' _ hLne d4),
      splitLines_append, splitLines_no_newline _ hLnl, parseLinesFrom_append] at h
    cases hm : parseLinesFrom emptyBook (splitLines (dropLeftWs tl)) with
    | none =>
      rw [hm] at h
      exact Option.noConfusion h
    | some b0 =>
      rw [hm] at h
      exact setLine_field f b0 b _ (parseLinesFrom_singleton _ _ _ h)

lemma mem_of_mem_dropWhile (p : Char → Bool) (c : Char) :
    ∀ l : List Char, c ∈ l.dropWhile p → c ∈ l := by
  intro l
  induction l with
  | nil => simp
  | cons x xs ih =>
    by_cases hx : p x
    · rw [List.dropWhile_cons_of_pos hx]
      intro h
      exact List.mem_cons_of_mem _ (ih h)
    · rw [List.dropWhile_cons_of_neg hx]
      exact id

lemma mem_pyStrip (c : Char) (cs : List Char) (h : c ∈ pyStrip cs) : c ∈ cs := by
  unfold pyStrip dropRightWs dropLeftWs at h
  rw [List.mem_reverse] at h
  have h2 := mem_of_mem_dropWhile _ _ _ h
  rw [List.mem_reverse] at h2
  exact mem_of_mem_dropWhile _ _ _ h2

lemma mem_splitLines (c : Char) : ∀ (cs l : List Char),
    l ∈ splitLines cs → c ∈ l → c ∈ cs := by
  intro cs
  induction cs with
  | nil =>
    intro l hl hc
    simp [splitLines] at hl
    subst hl
    simp at hc
  | cons x rest ih =>
    intro l hl hc
    simp only [splitLines] at hl
    by_cases hx : x = '\n'
    · rw [if_pos hx] at hl
      rcases List.mem_cons.mp hl with h1 | h1
      · subst h1
        simp at hc
      · exact List.mem_cons_of_mem _ (ih l h1 hc)
    · rw [if_neg hx] at hl
      obtain ⟨m, ms, hm⟩ : ∃ m ms, splitLines rest = m :: ms := by
        cases hsp : splitLines rest with
        | nil => exact absurd hsp (splitLines_ne_nil rest)
        | cons m ms => exact ⟨m, ms, rfl⟩
      rw [hm] at hl
      simp only [consHead] at hl
      rcases List.mem_cons.mp hl with h1 | h1
      · subst h1
        rcases List.mem_cons.mp hc with h2 | h2
        · subst h2
          exact List.mem_cons_self _ _
        · have hcr : c ∈ rest := ih m (by rw [hm]; exact List.mem_cons_self _ _) h2
          exact List.mem_cons_of_mem _ hcr
      · have hcr : c ∈ rest := ih l (by rw [hm]; exact List.mem_cons_of_mem _ h1) hc
        exact List.mem_cons_of_mem _ hcr

lemma mem_of_tail (c : Char) (l : List Char) (h : c ∈ l.tail) : c ∈ l := by
  cases l with
  | nil => simp at h
  | cons x xs => exact List.mem_cons_of_mem _ h

lemma splitSep_subset (line k v : List Char) (h : splitSep line = some (k, v)) :
    ∀ c ∈ v, c ∈ line := by
  induction line generalizing k v with
  | nil => simp [splitSep] at h
  | cons x rest ih =>
    simp only [splitSep] at h
    by_cases hx : x = ':' ∧ rest.head? = some ' '
    · rw [if_pos hx] at h
      injection h with h
      obtain ⟨hk, hv⟩ := Prod.mk.injEq _ _ _ _ ▸ h
      intro c hc
      rw [← hv] at hc
      exact List.mem_cons_of_mem _ (mem_of_tail c rest hc)
    · rw [if_neg hx] at h
      cases hr : splitSep rest with
      | none =>
        rw [hr] at h
        simp at h
      | some kv' =>
        obtain ⟨k', v'⟩ := kv'
        rw [hr] at h
        simp only [Option.map_some'] at h
        injection h with h
        obtain ⟨hk, hv⟩ := Prod.mk.injEq _ _ _ _ ▸ h
        intro c hc
        rw [← hv] at hc
        exact List.mem_cons_of_mem _ (ih k' v' hr c hc)

lemma setLine_eq_spec (b : BookData) (l : List Char)
    (h : ∀ c ∈ l, pyIsDigitChar c = true → c.isDigit = true) :
    setLine b l = some (setLineSpec b l) := by
  unfold setLine setLineSpec
  cases hs : splitSep l with
  | none => rfl
  | some kv =>
    obtain ⟨k, v⟩ := kv
    have hv : ∀ c ∈ v, pyIsDigitChar c = true → c.isDigit = true :=
      fun c hc hd => h c (splitSep_subset l k v hs c hc) hd
    dsimp only
    by_cases h1 : k = "Автор".data
    · rw [if_pos h1, if_pos h1]
    rw [if_neg h1, if_neg h1]
    by_cases h2 : k = "Название".data
    · rw [if_pos h2, if_pos h2]
    rw [if_neg h2, if_neg h2]
    by_cases h3 : k = "Год издания".data
    · rw [if_pos h3, if_pos h3]
      by_cases hd : pyIsDigit v = true
      · have hd' := hd
        rw [pyIsDigit, Bool.and_eq_true] at hd'
        obtain ⟨hne, hall⟩ := hd'
        have hall' : v.all Char.isDigit = true := by
          rw [List.all_eq_true] at hall ⊢
          intro c hc
          exact hv c hc (hall c hc)
        have hcond : (!v.isEmpty && v.all Char.isDigit) = true := by
          rw [Bool.and_eq_true]
          exact ⟨hne, hall'⟩
        rw [if_pos hd, if_pos hcond]
        unfold pyIntDigits?
        rw [if_pos hcond, Option.map_some']
      · have hcond : ¬(!v.isEmpty && v.all Char.isDigit) = true := by
          intro hcc
          apply hd
          rw [pyIsDigit, Bool.and_eq_true]
          rw [Bool.and_eq_true] at hcc
          obtain ⟨hne, hall⟩ := hcc
          refine ⟨hne, ?_⟩
          rw [List.all_eq_true] at hall ⊢
          intro c hc
          simp [pyIsDigitChar, hall c hc]
        rw [if_neg hd, if_neg hcond]
    rw [if_neg h3, if_neg h3]
    by_cases h4 : k = "Категория".data
    · rw [if_pos h4, if_pos h4]
    rw [if_neg h4, if_neg h4]
    by_cases h5 : k = "Издательство".data
    · rw [if_pos h5, if_pos h5]
    rw [if_neg h5, if_neg h5]

lemma parseLinesFrom_eq_spec (ls : List (List Char)) (b : BookData)
    (h : ∀ l ∈ ls, ∀ c ∈ l, pyIsDigitChar c = true → c.isDigit = true) :
    parseLinesFrom b ls = some (ls.foldl setLineSpec b) := by
  induction ls generalizing b with
  | nil => rfl
  | cons l ls' ih =>
    rw [parseLinesFrom_cons _ _ _ _ (setLine_eq_spec b l (h l (by simp)))]
    rw [List.foldl_cons]
    exact ih _ (fun l' hl' => h l' (by simp [hl']))

lemma parse_matches_spec_on_decimal_inputs (t : String)
    (h : ∀ c ∈ t.data, pyIsDigitChar c = true → c.isDigit = true) :
    parse_book_data t = some (parse_book_data_spec t) := by
  rw [parse_book_data, parse_book_data_spec]
  exact parseLinesFrom_eq_spec _ _
    (fun l hl c hc hd => h c (mem_pyStrip c _ (mem_splitLines c _ l hl hc)) hd)

/-! ## Claims -/

/-- C7: while no tenant is selected (Python truthiness: the current key
is `None` or empty), `handle_photo` replies with the guidance message
and returns immediately — no download, no extraction call, no staged
entry, and the state (in particular the pending store) is unchanged. -/
theorem photo_without_tenant_rejected (s : SysState) (o : Except Unit String)
    (book_id : String) (h : s.current_db_key.getD "" = "") :
    handle_photo s o book_id =
      ⟨s, false, false, some (PhotoReply.plain MSG_CONNECT_FIRST)⟩ := by
  simp [handle_photo, h]

/-- Witness for C7 at a concrete state with no selected key. -/
theorem photo_without_tenant_rejected_witness :
    (⟨none, [("k", "a.db")], [], []⟩ : SysState).current_db_key.getD "" = "" ∧
    handle_photo ⟨none, [("k", "a.db")], [], []⟩ (Except.ok "Автор: A") "p1" =
      ⟨⟨none, [("k", "a.db")], [], []⟩, false, false,
       some (PhotoReply.plain MSG_CONNECT_FIRST)⟩ :=
  ⟨rfl, photo_without_tenant_rejected _ _ _ rfl⟩

/-- C9: `/add_key` from a caller whose id differs from the configured
admin id replies with the rejection message and leaves the whole state
(in particular the key registry) unchanged, and `init_db` is not run. -/
theorem add_key_non_admin_rejected (adminId : Nat) (s : SysState) (callerId : Nat)
    (text : String) (h : callerId ≠ adminId) :
    add_db_key adminId s callerId text = (s, MSG_ADMIN_ONLY, false) := by
  simp [add_db_key, h]

/-- Witness for C9 at a concrete non-admin caller. -/
theorem add_key_non_admin_rejected_witness :
    (2 : Nat) ≠ 1 ∧
    add_db_key 1 ⟨none, [("k", "a.db")], [], []⟩ 2 "/add_key newkey file.db" =
      (⟨none, [("k", "a.db")], [], []⟩, MSG_ADMIN_ONLY, false) :=
  ⟨by decide, add_key_non_admin_rejected 1 _ 2 _ (by decide)⟩

/-- C4: counterexample to "`parse_book_data` never raises".  CPython's
`str.isdigit` is true for the superscript digit `'³'` while `int('³')`
raises `ValueError`, so `parse_book_data` raises on this input instead
of storing year 0 (`none` models the raised exception). -/
theorem parse_raises_on_superscript_digit :
    parse_book_data "Год издания: ³" = none := by decide

/-- C5: the code diverges from the spec's algorithm: for the value
`'²'` (which is not made of decimal digits but passes `str.isdigit`)
the spec's algorithm stores year 0, while the code raises `ValueError`
from `int('²')`. -/
theorem parse_code_vs_spec_divergence :
    parse_book_data "Год издания: ²" = none ∧
    parse_book_data_spec "Год издания: ²" = { publication_year := some 0 } := by
  exact ⟨by decide, by decide⟩

/-- C2 counterexample: with a tenant selected, a failed extraction call
still reaches staging — the apology text parses to the empty record,
which is staged under a fresh pending id, contradicting "no pending
entry is created in the Pending-Record Store for that photo". -/
theorem extraction_failure_counterexample :
    (handle_photo c2State (Except.error ()) "p1").reply =
      some (PhotoReply.card MSG_EXTRACT_FAIL "p1") ∧
    (handle_photo c2State (Except.error ()) "p1").state.pending = [("book:p1", [])] := by
  exact ⟨by decide, by decide⟩

/-- C2 amended: on `ExtractionError` the user does see the fixed
apology (it is sent as the card text, not raw error text), but the
submission still reaches staging: the empty parsed record is staged
under the fresh pending id. -/
theorem extraction_failure_still_stages (s : SysState) (u : Unit) (book_id : String)
    (h : ¬s.current_db_key.getD "" = "") :
    handle_photo s (Except.error u) book_id =
      ⟨{ s with pending := redisSet s.pending ("book:" ++ book_id) [] }, true, true,
       some (PhotoReply.card MSG_EXTRACT_FAIL book_id)⟩ := by
  have hparse : parse_book_data MSG_EXTRACT_FAIL = some emptyBook := by decide
  simp [handle_photo, h, process_images, hparse, stage_pending, dumps, emptyBook]

/-- Witness for the amended C2 at a concrete state. -/
theorem extraction_failure_still_stages_witness :
    ¬(c2State.current_db_key.getD "" = "") ∧
    handle_photo c2State (Except.error ()) "p1" =
      ⟨{ c2State with pending := redisSet c2State.pending "book:p1" [] }, true, true,
       some (PhotoReply.card MSG_EXTRACT_FAIL "p1")⟩ :=
  ⟨by decide, extraction_failure_still_stages c2State () "p1" (by decide)⟩

/-- C3 counterexample: when the ledger insert fails, the user gets the
failure reply but the pending entry is still present afterwards —
contradicting "the pending entry has already been removed ... and is
not restored". -/
theorem ledger_failure_counterexample :
    (process_save_callback c3State "save_book:p1" "7" "r1" true).2 =
      CbReply.reply MSG_SAVE_FAIL ∧
    redisGet (process_save_callback c3State "save_book:p1" "7" "r1" true).1.pending
      "book:p1" = some c3Dict := by
  exact ⟨by decide, by decide⟩

/-- C3 amended: if the ledger append fails during confirmation, the
user receives the failure reply and the whole state — including the
pending entry — is unchanged (the code deletes the entry only after a
successful append), so the confirmation can be retried: a later
confirmation of the same id with a working ledger succeeds. -/
theorem ledger_failure_keeps_pending (s : SysState) (id uid rid uid2 rid2 : String)
    (d : JDict)
    (htenant : ¬s.current_db_key.getD "" = "")
    (hid : extract_book_id ("save_book:" ++ id) = some id)
    (hpend : redisGet s.pending ("book:" ++ id) = some d)
    (hpath : ¬(get_current_db_path s).getD "" = "") :
    process_save_callback s ("save_book:" ++ id) uid rid true =
      (s, CbReply.reply MSG_SAVE_FAIL) ∧
    (process_save_callback s ("save_book:" ++ id) uid2 rid2 false).2 =
      CbReply.reply MSG_SAVE_OK := by
  constructor
  · simp [process_save_callback, htenant, hid, hpend, save_book, hpath]
  · simp [process_save_callback, htenant, hid, hpend, save_book, hpath]

/-- Witness for the amended C3 at the concrete failing state. -/
theorem ledger_failure_keeps_pending_witness :
    process_save_callback c3State "save_book:p1" "7" "r1" true =
      (c3State, CbReply.reply MSG_SAVE_FAIL) ∧
    (process_save_callback c3State "save_book:p1" "7" "r2" false).2 =
      CbReply.reply MSG_SAVE_OK :=
  ledger_failure_keeps_pending c3State "p1" "7" "r1" "7" "r2" c3Dict
    (by decide) (by decide) (by decide) (by decide)

/-- C8: the selected tenant is one process-global variable, not
per-conversation state.  Evaluating the failing scenario: user A
selects tenant `k1`, user B then selects `k2`; when A's staged record
is confirmed afterwards, the row is committed into B's database
`b.db` and A's database `a.db` stays empty — B's selection clobbered
A's. -/
theorem global_tenant_clobbered_across_conversations :
    get_current_db_path (send_welcome c8State "/start k1").1 = some "a.db" ∧
    get_current_db_path (send_welcome (send_welcome c8State "/start k1").1 "/start k2").1 =
      some "b.db" ∧
    ledgerAt (process_save_callback
        (stage_pending (send_welcome (send_welcome c8State "/start k1").1 "/start k2").1
          "p1" [("author", JVal.s "A")])
        "save_book:p1" "userA" "r1" false).1 "b.db" =
      [⟨"r1", "A", "", 0, "", "", "userA"⟩] ∧
    ledgerAt (process_save_callback
        (stage_pending (send_welcome (send_welcome c8State "/start k1").1 "/start k2").1
          "p1" [("author", JVal.s "A")])
        "save_book:p1" "userA" "r1" false).1 "a.db" = [] := by
  exact ⟨by decide, by decide, by decide, by decide⟩

/-- C1: staging any record under a fresh pending id and confirming it
once commits exactly that record (fields read back from the staged
JSON dict, missing fields defaulted to empty string / 0) into the
ledger of the current database, and deletes the pending entry; a
second confirmation with the same id finds nothing, replies that the
record was not found, and changes nothing — no second ledger row. -/
theorem stage_confirm_roundtrip (s : SysState) (b : BookData)
    (id uid rid uid2 rid2 : String)
    (hpath : ¬(get_current_db_path s).getD "" = "")
    (hfresh : redisGet s.pending ("book:" ++ id) = none)
    (hid : extract_book_id ("save_book:" ++ id) = some id) :
    (process_save_callback (stage_pending s id (dumps b))
        ("save_book:" ++ id) uid rid false).2 = CbReply.reply MSG_SAVE_OK ∧
    ledgerAt (process_save_callback (stage_pending s id (dumps b))
          ("save_book:" ++ id) uid rid false).1 ((get_current_db_path s).getD "") =
      ledgerAt s ((get_current_db_path s).getD "") ++
        [⟨rid, b.author.getD "", b.title.getD "", b.publication_year.getD 0,
          b.category.getD "", b.publisher.getD "", uid⟩] ∧
    redisGet (process_save_callback (stage_pending s id (dumps b))
          ("save_book:" ++ id) uid rid false).1.pending ("book:" ++ id) = none ∧
    process_save_callback (process_save_callback (stage_pending s id (dumps b))
          ("save_book:" ++ id) uid rid false).1 ("save_book:" ++ id) uid2 rid2 false =
      ((process_save_callback (stage_pending s id (dumps b))
          ("save_book:" ++ id) uid rid false).1, CbReply.reply MSG_NOT_FOUND) := by
  have htenant : ¬s.current_db_key.getD "" = "" := by
    intro hh
    exact hpath (by simp [get_current_db_path, hh])
  have hget1 : get_current_db_path (stage_pending s id (dumps b)) = get_current_db_path s := rfl
  have hgetd : redisGet (stage_pending s id (dumps b)).pending ("book:" ++ id) =
      some (dumps b) := redisGet_set_self _ _ _
  obtain ⟨ga, gt, gy, gc, gp⟩ := dumps_get b
  have hstep : process_save_callback (stage_pending s id (dumps b))
      ("save_book:" ++ id) uid rid false =
      ({ s with
          pending := redisDel (redisSet s.pending ("book:" ++ id) (dumps b)) ("book:" ++ id),
          ledgers := redisSet s.ledgers ((get_current_db_path s).getD "")
            (ledgerAt s ((get_current_db_path s).getD "") ++
              [⟨rid, b.author.getD "", b.title.getD "", b.publication_year.getD 0,
                b.category.getD "", b.publisher.getD "", uid⟩]) },
       CbReply.reply MSG_SAVE_OK) := by
    have hproj : get_current_db_path
        { current_db_key := s.current_db_key, db_keys := s.db_keys,
          pending := redisSet s.pending ("book:" ++ id) (dumps b), ledgers := s.ledgers } =
        get_current_db_path s := rfl
    simp [process_save_callback, stage_pending, save_book, ledgerAt, htenant, hid,
      hpath, hproj, redisGet_set_self, ga, gt, gy, gc, gp]
  refine ⟨by rw [hstep], ?_, ?_, ?_⟩
  · rw [hstep]
    simp [ledgerAt, lookup_set_self]
  · rw [hstep]
    exact redisGet_del_self _ _
  · rw [hstep]
    simp [process_save_callback, htenant, hid, redisGet_del_self]

/-- Witness for C1: a concrete staged record round-trips into one
ledger row and the duplicate confirmation is refused. -/
theorem stage_confirm_roundtrip_witness :
    (process_save_callback (stage_pending c2State "p1" (dumps { author := some "A" }))
        "save_book:p1" "7" "r1" false).2 = CbReply.reply MSG_SAVE_OK ∧
    ledgerAt (process_save_callback (stage_pending c2State "p1" (dumps { author := some "A" }))
          "save_book:p1" "7" "r1" false).1 ((get_current_db_path c2State).getD "") =
      ledgerAt c2State ((get_current_db_path c2State).getD "") ++
        [⟨"r1", "A", "", 0, "", "", "7"⟩] ∧
    redisGet (process_save_callback (stage_pending c2State "p1" (dumps { author := some "A" }))
          "save_book:p1" "7" "r1" false).1.pending "book:p1" = none ∧
    process_save_callback (process_save_callback
          (stage_pending c2State "p1" (dumps { author := some "A" }))
          "save_book:p1" "7" "r1" false).1 "save_book:p1" "8" "r2" false =
      ((process_save_callback (stage_pending c2State "p1" (dumps { author := some "A" }))
          "save_book:p1" "7" "r1" false).1, CbReply.reply MSG_NOT_FOUND) :=
  stage_confirm_roundtrip c2State { author := some "A" } "p1" "7" "r1" "8" "r2"
    (by decide) (by decide) (by decide)

/-- C6 counterexample: rendering strips a trailing space from the last
field on re-parsing — the record with publisher `"P "` does not round
trip (the parsed publisher is `"P"`), so `parse(render(record)) ==
record` fails for a record with all five fields and a non-negative
year. -/
theorem render_roundtrip_counterexample :
    parse_book_data (renderBook ⟨"A", "B", 1937, "C", "P "⟩) ≠
      some (toBookData ⟨"A", "B", 1937, "C", "P "⟩) := by
  decide

/-- C6 amended: `parse(render(record)) == record` holds for every
record with the five recognized fields whose values contain no
newline and whose publisher value (the final rendered characters,
which `str.strip` reaches) is nonempty and does not end in
whitespace; the year is non-negative by construction (`Nat`). -/
theorem parse_render_roundtrip (r : FullBook)
    (ha : '\n' ∉ r.author.data) (htl : '\n' ∉ r.title.data)
    (hct : '\n' ∉ r.category.data) (hpb : '\n' ∉ r.publisher.data)
    (hpub : ∃ p' c, r.publisher.data = p' ++ [c] ∧ pyIsSpace c = false) :
    parse_book_data (renderBook r) = some (toBookData r) := by
  obtain ⟨p', c, hp, hc⟩ := hpub
  have hdata : (renderBook r).data =
      ("Автор".data ++ ':' :: ' ' :: r.author.data) ++ '\n' ::
      (("Название".data ++ ':' :: ' ' :: r.title.data) ++ '\n' ::
      (("Год издания".data ++ ':' :: ' ' :: natDigits r.publication_year) ++ '\n' ::
      (("Категория".data ++ ':' :: ' ' :: r.category.data) ++ '\n' ::
      ("Издательство".data ++ ':' :: ' ' :: r.publisher.data)))) := by
    simp [renderBook, String.data_append, List.append_assoc]
  have hleft : dropLeftWs ((renderBook r).data) = (renderBook r).data := by
    rw [hdata]
    have hAv : ("Автор" : String).data = 'А' :: "втор".data := rfl
    rw [hAv]
    simp only [List.cons_append]
    exact dropLeftWs_cons_of_not_ws _ _ (by decide)
  have hright : dropRightWs ((renderBook r).data) = (renderBook r).data := by
    rw [hdata, hp]
    have s1 : dropRightWs (p' ++ [c]) = p' ++ [c] :=
      dropRightWs_append_keep _ _ (by simp) (dropRightWs_singleton c hc)
    have s2 : dropRightWs (' ' :: (p' ++ [c])) = ' ' :: (p' ++ [c]) :=
      dropRightWs_cons_keep _ _ (by simp) s1
    have s3 : dropRightWs (':' :: ' ' :: (p' ++ [c])) = ':' :: ' ' :: (p' ++ [c]) :=
      dropRightWs_cons_keep _ _ (by simp) s2
    have s4 : dropRightWs ("Издательство".data ++ ':' :: ' ' :: (p' ++ [c])) =
        "Издательство".data ++ ':' :: ' ' :: (p' ++ [c]) :=
      dropRightWs_append_keep _ _ (by simp) s3
    have s5 := dropRightWs_cons_keep '\n' _ (by simp) s4
    have s6 := dropRightWs_append_keep ("Категория".data ++ ':' :: ' ' :: r.category.data)
      _ (by simp) s5
    have s7 := dropRightWs_cons_keep '\n' _ (by simp) s6
    have s8 := dropRightWs_append_keep
      ("Год издания".data ++ ':' :: ' ' :: natDigits r.publication_year) _ (by simp) s7
    have s9 := dropRightWs_cons_keep '\n' _ (by simp) s8
    have s10 := dropRightWs_append_keep ("Название".data ++ ':' :: ' ' :: r.title.data)
      _ (by simp) s9
    have s11 := dropRightWs_cons_keep '\n' _ (by simp) s10
    exact dropRightWs_append_keep ("Автор".data ++ ':' :: ' ' :: r.author.data)
      _ (by simp) s11
  have hstrip : pyStrip ((renderBook r).data) = (renderBook r).data := by
    rw [pyStrip, hleft, hright]
  have hlines : splitLines ((renderBook r).data) =
      [("Автор".data ++ ':' :: ' ' :: r.author.data),
       ("Название".data ++ ':' :: ' ' :: r.title.data),
       ("Год издания".data ++ ':' :: ' ' :: natDigits r.publication_year),
       ("Категория".data ++ ':' :: ' ' :: r.category.data),
       ("Издательство".data ++ ':' :: ' ' :: r.publisher.data)] := by
    rw [hdata]
    rw [splitLines_append, splitLines_append, splitLines_append, splitLines_append]
    rw [splitLines_no_newline _ (no_newline_line _ _ (by decide) ha),
        splitLines_no_newline _ (no_newline_line _ _ (by decide) htl),
        splitLines_no_newline _ (no_newline_line _ _ (by decide)
          (natDigits_no_newline r.publication_year)),
        splitLines_no_newline _ (no_newline_line _ _ (by decide) hct),
        splitLines_no_newline _ (no_newline_line _ _ (by decide) hpb)]
    rfl
  rw [parse_book_data, hstrip, hlines,
      parseLinesFrom_cons _ _ _ _ (setLine_author _ _),
      parseLinesFrom_cons _ _ _ _ (setLine_title _ _),
      parseLinesFrom_cons _ _ _ _ (setLine_year_digits _ _),
      parseLinesFrom_cons _ _ _ _ (setLine_category _ _),
      parseLinesFrom_cons _ _ _ _ (setLine_publisher _ _)]
  rfl

/-- Witness for the amended C6 at a concrete full record. -/
theorem parse_render_roundtrip_witness :
    parse_book_data (renderBook ⟨"A", "B", 2020, "C", "P"⟩) =
      some (toBookData ⟨"A", "B", 2020, "C", "P"⟩) :=
  parse_render_roundtrip ⟨"A", "B", 2020, "C", "P"⟩
    (by decide) (by decide) (by decide) (by decide) ⟨[], 'P', by decide, by decide⟩

/-- C10: appending one further line with a recognized label to any
input text makes that line's value win: whenever the whole parse
succeeds, the parsed record's field for that label holds the value of
this last occurrence, whatever any earlier lines (including earlier
occurrences of the same label) assigned.  The value is assumed
newline-free and not ending in whitespace so that it survives
`str.strip` intact. -/
theorem parse_last_label_wins (f : BField) (t v : String)
    (hv1 : '\n' ∉ v.data)
    (hv2 : ∃ v' c, v.data = v' ++ [c] ∧ pyIsSpace c = false)
    (b : BookData)
    (h : parse_book_data (t ++ "\n" ++ labelOf f ++ ": " ++ v) = some b) :
    fieldGet f b = pyFieldVal f v := by
  have hT : (t ++ "\n" ++ labelOf f ++ ": " ++ v).data =
      t.data ++ '\n' :: ((labelOf f).data ++ ':' :: ' ' :: v.data) := by
    simp [String.data_append, List.append_assoc]
  rw [parse_book_data, hT] at h
  have hres := parse_last_line_core t.data f v.data hv1 hv2 b h
  rwa [string_mk_data] at hres

/-- Witness for C10: a second author line overwrites the first. -/
theorem parse_last_label_wins_witness :
    parse_book_data ("Автор: X" ++ "\n" ++ labelOf BField.author ++ ": " ++ "Y") =
      some { author := some "Y" } ∧
    fieldGet BField.author { author := some "Y" } = pyFieldVal BField.author "Y" :=
  ⟨by decide,
   parse_last_label_wins BField.author "Автор: X" "Y" (by decide)
     ⟨[], 'Y', by decide, by decide⟩ { author := some "Y" } (by decide)⟩
